import Mathlib

/-!
Verification development for the CodeConversionMCPServer repository.

The Python sources under `src/` are shallowly embedded as executable Lean
definitions: pure helpers become Lean functions, the stateful GitHub API is
modelled as explicit state passing, and fallible calls return `Except`.
External collaborators (GitHub REST API, the LLM completion API, the SQL
database) are modelled at the interface granularity the services use.
-/

/-! ## String helpers mirroring Python `str` semantics (over `List Char`). -/

/-- Python `startswith` on character lists: does `l` begin with `pat`? -/
def listStarts : List Char → List Char → Bool
  | _, [] => true
  | [], _ :: _ => false
  | a :: as, b :: bs => (a == b) && listStarts as bs

/-- Leftmost occurrence split: `some (before, after)` when `pat` occurs in `l`,
where `l = before ++ pat ++ after` and `before` is shortest. -/
def splitAtFirst : List Char → List Char → Option (List Char × List Char)
  | [], pat => if pat.isEmpty then some ([], []) else none
  | c :: t, pat =>
    if listStarts (c :: t) pat then some ([], (c :: t).drop pat.length)
    else
      match splitAtFirst t pat with
      | some (b, a) => some (c :: b, a)
      | none => none

/-- Python `pat in l` substring test. -/
def hasSub (l pat : List Char) : Bool := (splitAtFirst l pat).isSome

/-- Python `pat in s` on strings. -/
def strHas (s pat : String) : Bool := hasSub s.toList pat.toList

/-- Python `s.endswith(pat)`. -/
def strEnds (s pat : String) : Bool := listStarts s.toList.reverse pat.toList.reverse

/-- Scanner for Python `str.split(sep)`: `skip` counts characters still to be
consumed by a match already emitted; `acc` accumulates the current segment
reversed. Matches are leftmost and non-overlapping, as in CPython. -/
def scanSplit (pat : List Char) : Nat → List Char → List Char → List (List Char)
  | 0, acc, [] => [acc.reverse]
  | 0, acc, c :: t =>
    if listStarts (c :: t) pat then acc.reverse :: scanSplit pat (pat.length - 1) [] t
    else scanSplit pat 0 (c :: acc) t
  | _ + 1, acc, [] => [acc.reverse]
  | k + 1, acc, _ :: t => scanSplit pat k acc t

/-- Python `s.split(sep)` for a non-empty separator (the code only splits on
the literal separators `"```python"`, `"```"` and `"\n"`). -/
def splitOnStr (s pat : String) : List String :=
  if pat.toList.isEmpty then [s]
  else (scanSplit pat.toList 0 [] s.toList).map List.asString

/-- Scanner for Python `str.replace(old, new)`, leftmost non-overlapping. -/
def scanReplace (pat new : List Char) : Nat → List Char → List Char
  | 0, [] => []
  | 0, c :: t =>
    if listStarts (c :: t) pat then new ++ scanReplace pat new (pat.length - 1) t
    else c :: scanReplace pat new 0 t
  | _ + 1, [] => []
  | k + 1, _ :: t => scanReplace pat new k t

/-- Python `s.replace(old, new)` for a non-empty `old` (the code only replaces
the non-empty literals used in `llm_service.py`). -/
def replaceStr (s pat new : String) : String :=
  if pat.toList.isEmpty then s
  else (scanReplace pat.toList new.toList 0 s.toList).asString

/-- Python `s.strip()`: drop leading and trailing whitespace. -/
def pyStrip (s : String) : String :=
  (((s.toList.dropWhile Char.isWhitespace).reverse.dropWhile Char.isWhitespace).reverse).asString

/-- Python `s.lower()` (the code only feeds it ASCII content). -/
def lowerStr (s : String) : String := (s.toList.map Char.toLower).asString

/-- Python `sep.join l`. -/
def joinSep (sep : String) : List String → String
  | [] => ""
  | [x] => x
  | x :: y :: rest => x ++ sep ++ joinSep sep (y :: rest)

/-! ## The fenced-code-block regex of `llm_service.py` lines 198-204.

The pattern is `r'```(?:python)?\n(.*?)\n```'` with `re.DOTALL`: a fence
header (backticks, optional `python` tag, newline), a lazy capture, and a
closing `\n```'`. The scanners below implement exactly the leftmost-match,
lazy-capture semantics of CPython `re` for this concrete pattern. -/

/-- The closing delimiter `"\n```"` of the fence pattern. -/
def closeMark : List Char := '\n' :: '`' :: '`' :: '`' :: []

/-- The tagged fence header `"```python\n"`. -/
def taggedHeader : List Char := "```python\n".toList

/-- The untagged fence header `"```\n"`. -/
def bareHeader : List Char := "```\n".toList

/-- Length of the fence header matching at this position, preferring the
tagged form exactly as `(?:python)?` does. -/
def fenceHeaderLen (l : List Char) : Option Nat :=
  if listStarts l taggedHeader then some taggedHeader.length
  else if listStarts l bareHeader then some bareHeader.length
  else none

/-- Total length of the regex match starting at this position, if any:
header, lazy capture up to the first `"\n```"`, and the close itself. -/
def fenceMatchAt (l : List Char) : Option Nat :=
  match fenceHeaderLen l with
  | none => none
  | some hk =>
    match splitAtFirst (l.drop hk) closeMark with
    | some (cap, _) => some (hk + cap.length + closeMark.length)
    | none => none

/-- First capture group of `re.findall(r'```(?:python)?\n(.*?)\n```', ...)`:
scan positions left to right, return the first successful capture. -/
def findFenceCapture : List Char → Option (List Char)
  | [] => none
  | c :: t =>
    match fenceHeaderLen (c :: t) with
    | some hk =>
      match splitAtFirst ((c :: t).drop hk) closeMark with
      | some (cap, _) => some cap
      | none => findFenceCapture t
    | none => findFenceCapture t

/-- Scanner for `re.sub(r'```(?:python)?\n(.*?)\n```', '', content)`:
emit characters, deleting each leftmost non-overlapping match. -/
def scanRemoveFences : Nat → List Char → List Char
  | 0, [] => []
  | 0, c :: t =>
    match fenceMatchAt (c :: t) with
    | some k => scanRemoveFences (k - 1) t
    | none => c :: scanRemoveFences 0 t
  | _ + 1, [] => []
  | k + 1, _ :: t => scanRemoveFences k t

/-- The `re.sub` call of `llm_service.py` line 204 on a string. -/
def removeFences (s : String) : String := (scanRemoveFences 0 s.toList).asString

/-! ## Translation Engine: response handling of `LLMService.convert_code_to_python`
(`src/services/llm_service.py` lines 187-221) and
`LLMService.generate_pr_description` (lines 230-274). -/

/-- The placeholder notes of `llm_service.py` lines 197/207/210. -/
def placeholderNotes : String := "Conversion completed with intelligent library selection"

/-- The placeholder substituted when the cleaned explanation is empty
(`llm_service.py` line 215). -/
def emptyNotesPlaceholder : String :=
  "Code converted using best-practice Python libraries and patterns"

/-- Response parsing of `LLMService.convert_code_to_python`, lines 187-221:
given the LLM response `content`, produce `(code_part, explanation)`.
Branch 1 fires when the response contains a `python`-tagged fence; branch 2
(the regex) only fires when the response contains a bare fence AND the word
`python` occurs anywhere in the lowercased response; otherwise the whole
response is treated as code. -/
def convert_code_to_python (content : String) : String × String :=
  let pe : String × String :=
    if strHas content "```python" then
      let parts := splitOnStr content "```python"
      if parts.length > 1 then
        let code_part := pyStrip ((splitOnStr (parts.getD 1 "") "```").headD "")
        let explanation :=
          pyStrip (replaceStr content ("```python\n" ++ code_part ++ "\n```") "")
        (code_part, explanation)
      else
        (content, placeholderNotes)
    else if strHas content "```" && strHas (lowerStr content) "python" then
      match findFenceCapture content.toList with
      | some cap => (pyStrip cap.asString, pyStrip (removeFences content))
      | none => (content, placeholderNotes)
    else
      (content, placeholderNotes)
  let explanation := pyStrip (replaceStr pe.snd "```" "")
  let explanation := if explanation = "" then emptyNotesPlaceholder else explanation
  (pe.fst, explanation)

/-- Result of `LLMService.generate_pr_description`, lines 230-274, given the
outcome of the one LLM completion call it makes: on success the stripped
completion text is returned; the `except` clause at lines 272-274 only logs,
so the function falls off the end and returns `None` — modelled as `none`. -/
def generate_pr_description_result (llmOutcome : Except String String) : Option String :=
  match llmOutcome with
  | .ok content => some (pyStrip content)
  | .error _ => none

/-! ## Configuration (`src/config.py`) and the Path/Extension Mapper
(`ConversionService._get_target_path`, `src/services/conversion_service.py`
lines 178-198). -/

/-- The `supported_extensions` mapping of `config.py` lines 45-80, in its
insertion order (Python dicts preserve it, and the discovery loop and the
mapper iterate it in that order). -/
def supported_extensions : List (String × String) :=
  [(".sh", "shell"), (".bash", "shell"), (".zsh", "shell"), (".fish", "shell"),
   (".ps1", "powershell"), (".psm1", "powershell"), (".psd1", "powershell"),
   (".ts", "typescript"), (".tsx", "typescript"),
   (".js", "javascript"), (".jsx", "javascript"),
   (".go", "go"), (".rs", "rust"), (".rb", "ruby"), (".php", "php"),
   (".java", "java"), (".scala", "scala"), (".kt", "kotlin"), (".swift", "swift"),
   (".cs", "csharp"), (".cpp", "cpp"), (".cc", "cpp"), (".cxx", "cpp"),
   (".c", "c"), (".pl", "perl"), (".r", "r"), (".R", "r"), (".lua", "lua"),
   (".dart", "dart"), (".groovy", "groovy"), (".gradle", "groovy")]

/-- The `Settings` fields relevant to the conversion pipeline
(`config.py` lines 40-80). `max_file_size` and `max_files_per_repo` are
declared at lines 41-42. -/
structure Settings where
  max_file_size : Nat
  max_files_per_repo : Nat
  supported_extensions : List (String × String)
deriving Repr, DecidableEq

/-- The repository settings with the `config.py` defaults. -/
def defaultSettings : Settings :=
  { max_file_size := 10000, max_files_per_repo := 50,
    supported_extensions := supported_extensions }

/-- First-match association lookup (Python `dict[key]` for the small literal
dicts the services use, with a default for the impossible-miss case). -/
def alookup {α : Type} : List (String × α) → String → Option α
  | [], _ => none
  | (k, v) :: t, key => if k = key then some v else alookup t key

/-- The `target_extensions` dict of `_get_target_path`, lines 181-188. -/
def target_extensions : List (String × String) :=
  [("python", ".py"), ("javascript", ".js"), ("typescript", ".ts"),
   ("go", ".go"), ("rust", ".rs"), ("java", ".java")]

/-- Python `s[:-n]` for `n ≤ len s` (drop the last `n` characters). -/
def dropLast (s : String) (n : Nat) : String :=
  (s.toList.take (s.toList.length - n)).asString

/-- `ConversionService._get_target_path`, lines 178-198: strip the first
matching source extension (in `supported_extensions` order) and append the
target language's extension, defaulting to `".py"`. -/
def get_target_path (original_path target_language : String) : String :=
  let target_ext := (alookup target_extensions target_language).getD ".py"
  match supported_extensions.find? (fun p => strEnds original_path p.fst) with
  | some p => dropLast original_path p.fst.length ++ target_ext
  | none => original_path ++ target_ext

/-! ## `ConversionService._format_target_code`
(`src/services/conversion_service.py` lines 200-247). -/

/-- The fixed Python header of lines 213-230 (an f-string naming the source
language and original path). -/
def pyHeader (source_language original_path : String) : String :=
  "#!/usr/bin/env python3\n\"\"\"\nConverted from " ++ source_language ++ ": " ++ original_path
    ++ "\nGenerated by MCP Multi-Language to Python Converter\n\"\"\"\n\nimport os\nimport sys\nimport subprocess\nimport logging\nfrom pathlib import Path\nfrom typing import Optional, List, Dict, Any\n\n# Setup logging\nlogging.basicConfig(level=logging.INFO, format=\x27%(asctime)s - %(levelname)s - %(message)s\x27)\nlogger = logging.getLogger(__name__)\n\n"

/-- The guarded `main`-wrapping of lines 234-245: indent every line of the
converted body by eight spaces under a `try`, and append the error-handling
tail and the `__main__` guard. -/
def mainWrap (source_language converted_code : String) : String :=
  "\ndef main():\n    \"\"\"Main function converted from " ++ source_language
    ++ "\"\"\"\n    try:\n"
    ++ joinSep "\n" ((splitOnStr converted_code "\n").map (fun line => "        " ++ line))
    ++ "\n    except Exception as e:\n        logger.error(f\"Script execution failed: \x7be\x7d\")\n        sys.exit(1)\n\nif __name__ == \"__main__\":\n    main()\n"

/-- `ConversionService._format_target_code`, lines 200-247: non-python targets
pass through; python targets get the fixed header, and bodies without an
entry-point pattern are additionally wrapped in a guarded `main`. The final
`else:` branch is cut off by the end of the source file at line 247;
Modelled from the spec: step 5d of §4.3 wraps the raw converted body in the
fixed header only, when the body already defines an entry-point pattern. -/
def format_target_code
    (converted_code original_path source_language target_language : String) : String :=
  if target_language ≠ "python" then converted_code
  else
    let header := pyHeader source_language original_path
    if !(strHas converted_code "def main():")
        && !(strHas converted_code "if __name__ == \"__main__\":") then
      header ++ mainWrap source_language converted_code
    else
      header ++ converted_code

/-! ## Data model: `FileConversion` (`src/models/schemas.py` lines 85-92) and
the job-ledger row `ConversionJob` (`src/models/database.py` lines 31-60,
restricted to the fields the pipeline's lifecycle hooks can touch). -/

/-- `FileConversion` of `schemas.py` lines 85-92. -/
structure FileConversion where
  original_path : String
  converted_path : String
  original_content : String
  converted_content : String
  source_language : String
  target_language : String
  conversion_notes : Option String
deriving Repr, DecidableEq

/-- The mutable job-ledger fields of `ConversionJob` (`database.py` lines
49-55): status, error text, PR URL and the two counters, with their column
defaults. -/
structure Job where
  status : String
  error_message : Option String
  pr_url : Option String
  files_processed : Nat
  files_converted : Nat
deriving Repr, DecidableEq

/-- A freshly inserted job row (column defaults of `database.py`). -/
def initJob : Job :=
  { status := "pending", error_message := none, pr_url := none,
    files_processed := 0, files_converted := 0 }

/-! ## Source Repository Gateway state (`src/services/github_service.py`).

The remote git store is modelled as a ref table plus a commit store with
materialized trees; blob and tree objects are tracked through the API-call
trace. Ref updates without `force` are compare-and-swap: GitHub rejects a
non-fast-forward update of a moved ref. -/

/-- A git commit: parent, materialized tree (path to content), message. -/
structure Commit where
  parent : Option Nat
  tree : List (String × String)
  message : String
deriving Repr, DecidableEq

/-- The remote repository state: branch refs, commit store, next fresh sha. -/
structure GitState where
  refs : List (String × Nat)
  commits : List (Nat × Commit)
  fresh : Nat
deriving Repr, DecidableEq

/-- First-match lookup in a ref table or commit store. -/
def alookupN {κ α : Type} [DecidableEq κ] : List (κ × α) → κ → Option α
  | [], _ => none
  | (k, v) :: t, key => if k = key then some v else alookupN t key

/-- GitHub `create_git_tree(tree_elements, base_tree)`: each element replaces
an existing entry with the same path or is appended. -/
def upsertTree (t : List (String × String)) (p c : String) : List (String × String) :=
  if p ∈ t.map Prod.fst then t.map (fun e => if e.fst = p then (p, c) else e)
  else t ++ [(p, c)]

/-- Point update of an existing ref (GitHub `PATCH /git/refs`). -/
def setRef (refs : List (String × Nat)) (branch : String) (sha : Nat) :
    List (String × Nat) :=
  refs.map (fun e => if e.fst = branch then (branch, sha) else e)

/-- The error message GitHub returns for a rejected non-fast-forward ref
update; this is the spec's `ConcurrentUpdateError` outcome. -/
def concurrentUpdateError : String := "422 Update is not a fast forward"

/-- The GitHub message for a missing ref. -/
def notFoundError : String := "404 Not Found"

/-- The GitHub message for `create_git_ref` on an existing ref. -/
def refExistsError : String := "422 Reference already exists"

/-- GitHub `ref.edit(sha)` with the default `force=False`: compare-and-swap
on the ref table as it stands at edit time. -/
def apiEditRef (refs : List (String × Nat)) (branch : String)
    (expected newSha : Nat) : Except String (List (String × Nat)) :=
  match alookupN refs branch with
  | none => .error notFoundError
  | some cur =>
    if cur = expected then .ok (setRef refs branch newSha)
    else .error concurrentUpdateError

/-- `GitHubService.create_branch` (`github_service.py` lines 98-117): resolve
the source branch tip, create the new ref, and treat only the
"Reference already exists" failure as a logged no-op; every other
`GithubException` is re-raised. -/
def create_branch (s : GitState) (source_branch target_branch : String) :
    Except String GitState :=
  let body : Except String GitState :=
    match alookupN s.refs source_branch with
    | none => .error notFoundError
    | some sha =>
      if (alookupN s.refs target_branch).isSome then .error refExistsError
      else .ok { s with refs := (target_branch, sha) :: s.refs }
  match body with
  | .ok s2 => .ok s2
  | .error e => if strHas e "Reference already exists" then .ok s else .error e

/-- The API calls `commit_files` performs, in order. -/
inductive ApiCall
  | getRefCall
  | createBlobCall
  | getTreeCall
  | createTreeCall
  | getCommitCall
  | createCommitCall
  | editRefCall
deriving Repr, DecidableEq

/-- Outcome of one `commit_files` run: the raised-or-ok result, the ref table
and commit store afterwards, the sha of the commit object it created (if it
got that far), and the trace of API calls it made. -/
structure CommitOutcome where
  result : Except String Unit
  finalRefs : List (String × Nat)
  commits : List (Nat × Commit)
  createdSha : Option Nat
  trace : List ApiCall
deriving Repr

/-- `GitHubService.commit_files` (`github_service.py` lines 119-168): read the
branch tip once, create one blob per file, build one tree layered on the
current tree, create one commit with the old tip as parent, then fast-forward
the ref. `refsAtEdit` is the ref table at the moment `ref.edit` executes — a
concurrent writer may have changed it after the initial read; the non-forced
edit is the compare-and-swap of `apiEditRef`. A `GithubException` from any
step is logged and re-raised (lines 166-168). -/
def commit_files (s : GitState) (branch : String) (files : List (String × String))
    (commit_message : String) (refsAtEdit : List (String × Nat)) : CommitOutcome :=
  match alookupN s.refs branch with
  | none =>
    { result := .error notFoundError, finalRefs := refsAtEdit,
      commits := s.commits, createdSha := none, trace := [ApiCall.getRefCall] }
  | some current_sha =>
    let base_tree :=
      match alookupN s.commits current_sha with
      | some c => c.tree
      | none => []
    let new_tree := files.foldl (fun t e => upsertTree t e.fst e.snd) base_tree
    let newSha := s.fresh
    let c : Commit := { parent := some current_sha, tree := new_tree,
                        message := commit_message }
    let tr := ApiCall.getRefCall :: (files.map fun _ => ApiCall.createBlobCall)
      ++ [ApiCall.getTreeCall, ApiCall.createTreeCall, ApiCall.getCommitCall,
          ApiCall.createCommitCall, ApiCall.editRefCall]
    match apiEditRef refsAtEdit branch current_sha newSha with
    | .ok refs2 =>
      { result := .ok (), finalRefs := refs2, commits := (newSha, c) :: s.commits,
        createdSha := some newSha, trace := tr }
    | .error e =>
      { result := .error e, finalRefs := refsAtEdit,
        commits := (newSha, c) :: s.commits, createdSha := some newSha, trace := tr }

/-! ## Conversion Orchestrator (`src/services/conversion_service.py` lines
23-176) and the job dispatcher `process_conversion_job`
(`src/main.py` lines 407-477).

The orchestrator's collaborators are abstracted as per-job oracles: each
field is the observable outcome of the corresponding service call for this
job. The orchestrator itself is transcribed statement by statement. -/

/-- Per-job outcomes of the external service calls the orchestrator makes. -/
structure Services where
  find_convertible_files_call : Except String (List (String × String))
  get_file_content_call : String → Except String String
  convert_code_call : String → String → String → String → Except String (String × String)
  create_branch_call : Except String Unit
  commit_files_call : List (String × String) → String → Except String Unit
  llm_pr_description_call : List FileConversion → String → Except String String
  create_pull_request_call : String → Option String → Except String String

/-- Observable effects of one orchestrator run, in chronological order. -/
inductive Effect
  | branchCreated
  | fileAttempted (path : String)
  | commitCalled (batch : List (String × String)) (message : String)
  | prCalled (title : String) (body : Option String)
  | prOpened (url : String)
deriving Repr, DecidableEq

/-- One iteration body of the per-file loop (lines 71-117): read the file,
convert it, compute the target path, format the result, and build the
`FileConversion` record. Any failing step short-circuits with its error. -/
def process_one (sv : Services) (target_language : String) (f : String × String) :
    Except String FileConversion := do
  let source_content ← sv.get_file_content_call f.fst
  let conv ← sv.convert_code_call source_content f.fst f.snd target_language
  let target_path := get_target_path f.fst target_language
  let formatted_code := format_target_code conv.fst f.fst f.snd target_language
  .ok { original_path := f.fst, converted_path := target_path,
        original_content := source_content, converted_content := formatted_code,
        source_language := f.snd, target_language := target_language,
        conversion_notes := some conv.snd }

/-- The per-file loop of lines 70-123: each file is attempted in order; a
failing iteration is logged and skipped (`except` + `continue`), a successful
one appends its conversion. Returns the conversions in order plus the
chronological per-file effects. -/
def process_files (sv : Services) (target_language : String) :
    List (String × String) → List FileConversion × List Effect
  | [] => ([], [])
  | f :: rest =>
    let tail := process_files sv target_language rest
    match process_one sv target_language f with
    | .ok c => (c :: tail.fst, Effect.fileAttempted f.fst :: tail.snd)
    | .error _ => (tail.fst, Effect.fileAttempted f.fst :: tail.snd)

/-- The `languages_summary` accumulation of lines 130-133: an insertion-ordered
count per source language. -/
def bumpLang (m : List (String × Nat)) (k : String) : List (String × Nat) :=
  if k ∈ m.map Prod.fst then m.map (fun e => if e.fst = k then (k, e.snd + 1) else e)
  else m ++ [(k, 1)]

/-- The commit-batch construction of line 110: one `(target_path,
formatted_code)` pair per successful conversion, in loop order. -/
def commit_batch (conversions : List FileConversion) : List (String × String) :=
  conversions.map (fun c => (c.converted_path, c.converted_content))

/-- The commit message of lines 130-137. -/
def build_commit_message (target_language : String)
    (conversions : List FileConversion) : String :=
  let languages_summary := conversions.foldl (fun m c => bumpLang m c.source_language) []
  let lang_summary_text :=
    joinSep ", " (languages_summary.map (fun p => toString p.snd ++ " " ++ p.fst))
  "Convert multiple languages to " ++ target_language ++ "\n\nConverted "
    ++ toString (commit_batch conversions).length ++ " files (" ++ lang_summary_text
    ++ ") to " ++ target_language ++ " equivalents.\n\nFiles converted:\n"
    ++ joinSep "\n" (conversions.map (fun c =>
        "- " ++ c.original_path ++ " (" ++ c.source_language ++ ") → " ++ c.converted_path))

/-- The PR title of line 153. -/
def build_pr_title (target_language : String) (conversions : List FileConversion) : String :=
  "Convert multiple languages to " ++ target_language ++ " ("
    ++ toString conversions.length ++ " files)"

/-- `ConversionService.process_repository` (`conversion_service.py` lines
23-176), transcribed over the per-job service oracles. The Python method is
annotated `-> None` and returns `None` on every path, so the embedded result
carries no payload: `.ok ()` on the completed and early-return paths, and the
propagated error otherwise (the outer `except` at lines 170-176 logs and
re-raises). The second component is the chronological effect trace. -/
def process_repository (sv : Services) (repo_name target_language : String) :
    Except String Unit × List Effect :=
  match sv.find_convertible_files_call with
  | .error e => (.error e, [])
  | .ok convertible_files =>
    if convertible_files.isEmpty then (.ok (), [])
    else
      match sv.create_branch_call with
      | .error e => (.error e, [])
      | .ok _ =>
        let pf := process_files sv target_language convertible_files
        let conversions := pf.fst
        let files_to_commit := commit_batch conversions
        let base_trace := Effect.branchCreated :: pf.snd
        if files_to_commit.isEmpty then (.ok (), base_trace)
        else
          let commit_message := build_commit_message target_language conversions
          let ct := base_trace ++ [Effect.commitCalled files_to_commit commit_message]
          match sv.commit_files_call files_to_commit commit_message with
          | .error e => (.error e, ct)
          | .ok _ =>
            let pr_body :=
              generate_pr_description_result
                (sv.llm_pr_description_call conversions repo_name)
            let pr_title := build_pr_title target_language conversions
            let pt := ct ++ [Effect.prCalled pr_title pr_body]
            match sv.create_pull_request_call pr_title pr_body with
            | .error e => (.error e, pt)
            | .ok url => (.ok (), pt ++ [Effect.prOpened url])

/-- `process_conversion_job` (`main.py` lines 407-477): mark the job
processing, run the orchestrator, then mark it completed on normal return or
failed (with the error text) when the orchestrator raised. No other ledger
field is written on either path. -/
def process_conversion_job (sv : Services) (repo_name target_language : String)
    (job : Job) : Job × List Effect :=
  let j1 := { job with status := "processing" }
  match process_repository sv repo_name target_language with
  | (.ok _, tr) =>
    (if j1.status = "processing" then { j1 with status := "completed" } else j1, tr)
  | (.error e, tr) => ({ j1 with status := "failed", error_message := some e }, tr)

/-! ## File discovery: `GitHubService.find_convertible_files`
(`src/services/github_service.py` lines 41-87). -/

/-- A node of the remote repository tree as `repo.get_contents` reports it:
a file (with its basename and full path) or a directory with children. -/
inductive Entry
  | file (name : String) (path : String)
  | dir (path : String) (children : List Entry)
deriving Repr

mutual
/-- Node count of one entry (termination measure for the traversal queue). -/
def entrySize : Entry → Nat
  | .file _ _ => 1
  | .dir _ cs => 1 + entsSize cs
/-- Node count of an entry list. -/
def entsSize : List Entry → Nat
  | [] => 0
  | e :: t => entrySize e + entsSize t
end

/-- The queue-based traversal of lines 65-80: pop the front; directories
append their children to the back of the queue; files take the first
extension of `texts` they end with, and its language from the settings map. -/
def discovery_walk (exts : List (String × String)) (texts : List String) :
    List Entry → List (String × String)
  | [] => []
  | Entry.file name path :: rest =>
    (match texts.find? (fun ext => strEnds name ext) with
     | some ext => ((path, (alookup exts ext).getD "") :: ·)
     | none => id) (discovery_walk exts texts rest)
  | Entry.dir _ children :: rest => discovery_walk exts texts (rest ++ children)
termination_by queue => entsSize queue
decreasing_by
  · simp [entsSize, entrySize]
  · have h : ∀ xs ys : List Entry, entsSize (xs ++ ys) = entsSize xs + entsSize ys := by
      intro xs ys
      induction xs with
      | nil => simp [entsSize]
      | cons x t ih => simp [entsSize, ih]; omega
    simp only [entsSize, entrySize, h]
    omega

/-- `GitHubService.find_convertible_files`, lines 41-87: compute the target
extension list (filtered by the requested source languages when given, in
`supported_extensions` insertion order, else all extensions), then walk the
repository tree. Returns `(path, language)` pairs in traversal order. -/
def find_convertible_files (s : Settings) (source_languages : Option (List String))
    (tree : List Entry) : List (String × String) :=
  let texts :=
    match source_languages with
    | some langs =>
      ((s.supported_extensions).filter (fun p => langs.contains p.snd)).map Prod.fst
    | none => (s.supported_extensions).map Prod.fst
  discovery_walk s.supported_extensions texts tree

/-! ## Trace observations and concrete scenario inputs used by the claims. -/

/-- The commit batches passed to `commit_files` during a run. -/
def committedBatches (tr : List Effect) : List (List (String × String)) :=
  tr.filterMap (fun e => match e with | .commitCalled b _ => some b | _ => none)

/-- The PR bodies passed to `create_pull_request` during a run. -/
def prBodies (tr : List Effect) : List (Option String) :=
  tr.filterMap (fun e => match e with | .prCalled _ b => some b | _ => none)

/-- The URLs of pull requests successfully opened during a run. -/
def prUrls (tr : List Effect) : List String :=
  tr.filterMap (fun e => match e with | .prOpened u => some u | _ => none)

/-- Scenario: `a.ts` and `a.js` both discovered and both converted — their
target paths collide on `a.py`. -/
def svColl : Services :=
  { find_convertible_files_call := .ok [("a.ts", "typescript"), ("a.js", "javascript")],
    get_file_content_call := fun _ => .ok "let x = 1;",
    convert_code_call := fun _ _ _ _ => .ok ("x = 1", "n"),
    create_branch_call := .ok (),
    commit_files_call := fun _ _ => .ok (),
    llm_pr_description_call := fun _ _ => .ok "body",
    create_pull_request_call := fun _ _ => .ok "https://github.com/o/r/pull/2" }

/-- Scenario: one file converts, the PR-summary LLM call fails, the PR call
succeeds. -/
def svSummaryFail : Services :=
  { find_convertible_files_call := .ok [("deploy.sh", "shell")],
    get_file_content_call := fun _ => .ok "echo hi",
    convert_code_call := fun _ _ _ _ => .ok ("x = 1", "n"),
    create_branch_call := .ok (),
    commit_files_call := fun _ _ => .ok (),
    llm_pr_description_call := fun _ _ => .error "llm quota exceeded",
    create_pull_request_call := fun _ _ => .ok "https://github.com/o/r/pull/3" }

/-- Scenario: a fully successful one-file job. -/
def svSuccess : Services :=
  { find_convertible_files_call := .ok [("deploy.sh", "shell")],
    get_file_content_call := fun _ => .ok "echo hi",
    convert_code_call := fun _ _ _ _ => .ok ("x = 1", "n"),
    create_branch_call := .ok (),
    commit_files_call := fun _ _ => .ok (),
    llm_pr_description_call := fun _ _ => .ok "body",
    create_pull_request_call := fun _ _ => .ok "https://github.com/o/r/pull/1" }

/-- Scenario: the translation engine fails on `bad.sh` only. -/
def svOneBad : Services :=
  { find_convertible_files_call := .ok [("bad.sh", "shell"), ("good.sh", "shell")],
    get_file_content_call := fun _ => .ok "echo hi",
    convert_code_call := fun _ p _ _ =>
      if p = "bad.sh" then .error "translation failed" else .ok ("x = 1", "n"),
    create_branch_call := .ok (),
    commit_files_call := fun _ _ => .ok (),
    llm_pr_description_call := fun _ _ => .ok "body",
    create_pull_request_call := fun _ _ => .ok "https://github.com/o/r/pull/4" }

/-- Scenario: discovery finds nothing. -/
def svEmpty : Services :=
  { find_convertible_files_call := .ok [],
    get_file_content_call := fun _ => .ok "",
    convert_code_call := fun _ _ _ _ => .ok ("", ""),
    create_branch_call := .ok (),
    commit_files_call := fun _ _ => .ok (),
    llm_pr_description_call := fun _ _ => .ok "body",
    create_pull_request_call := fun _ _ => .ok "https://github.com/o/r/pull/5" }

/-- A small remote repository: branch `main` at commit 10, next sha 20. -/
def gsMain : GitState :=
  { refs := [("main", 10)],
    commits := [(10, { parent := none, tree := [("old.txt", "x")], message := "init" })],
    fresh := 20 }

/-- A remote repository where the conversion branch already exists. -/
def gsBoth : GitState :=
  { refs := [("main", 5), ("convert-to-python", 7)],
    commits := [], fresh := 9 }

/-- The C9 counterexample response: a bare fence with no occurrence of the
word `python` anywhere in the response. -/
def bareFenceResponse : String := "```\nfoo\n```"

/-- The file paths attempted by the per-file loop during a run. -/
def attemptedPaths (tr : List Effect) : List String :=
  tr.filterMap (fun e => match e with | .fileAttempted p => some p | _ => none)

/-- A default record for total extraction from `Except`. -/
def fcDefault : FileConversion :=
  { original_path := "", converted_path := "", original_content := "",
    converted_content := "", source_language := "", target_language := "",
    conversion_notes := none }

/-- The conversion produced by one successful loop iteration (total helper for
naming concrete loop outputs). -/
def convOf (sv : Services) (tl : String) (f : String × String) : FileConversion :=
  match process_one sv tl f with
  | .ok c => c
  | .error _ => fcDefault

/-! ## Lemmas about the per-file loop. -/

/-- The loop attempts every file, in order, whatever the per-file outcomes. -/
theorem process_files_snd (sv : Services) (tl : String) (l : List (String × String)) :
    (process_files sv tl l).snd = l.map (fun f => Effect.fileAttempted f.fst) := by
  induction l with
  | nil => rfl
  | cons f rest ih =>
    simp only [process_files]
    cases process_one sv tl f <;> simp [ih]

/-- The conversions of a concatenated batch are the concatenated conversions. -/
theorem process_files_fst_append (sv : Services) (tl : String)
    (xs ys : List (String × String)) :
    (process_files sv tl (xs ++ ys)).fst
      = (process_files sv tl xs).fst ++ (process_files sv tl ys).fst := by
  induction xs with
  | nil => simp [process_files]
  | cons f rest ih =>
    simp only [List.cons_append, process_files]
    cases process_one sv tl f <;> simp [ih]

/-- A failing head iteration contributes no conversion. -/
theorem process_files_fst_err (sv : Services) (tl : String) (f : String × String)
    (rest : List (String × String)) (e : String)
    (h : process_one sv tl f = .error e) :
    (process_files sv tl (f :: rest)).fst = (process_files sv tl rest).fst := by
  simp [process_files, h]

/-- A successful head iteration contributes exactly its conversion. -/
theorem process_files_fst_ok (sv : Services) (tl : String) (f : String × String)
    (rest : List (String × String)) (c : FileConversion)
    (h : process_one sv tl f = .ok c) :
    (process_files sv tl (f :: rest)).fst = c :: (process_files sv tl rest).fst := by
  simp [process_files, h]

/-- When every file fails, the loop produces no conversions. -/
theorem process_files_fst_all_fail (sv : Services) (tl : String)
    (files : List (String × String))
    (hall : ∀ f ∈ files, ∃ e, process_one sv tl f = .error e) :
    (process_files sv tl files).fst = [] := by
  induction files with
  | nil => rfl
  | cons f rest ih =>
    obtain ⟨e, he⟩ := hall f (List.mem_cons_self f rest)
    rw [process_files_fst_err sv tl f rest e he]
    exact ih (fun g hg => hall g (List.mem_cons_of_mem f hg))

/-- Per-file effects carry no commit call. -/
theorem committedBatches_attempts (l : List (String × String)) :
    committedBatches (Effect.branchCreated
      :: l.map (fun f => Effect.fileAttempted f.fst)) = [] := by
  simp [committedBatches, List.filterMap_map]

/-- Per-file effects carry no PR call. -/
theorem prBodies_attempts (l : List (String × String)) :
    prBodies (Effect.branchCreated
      :: l.map (fun f => Effect.fileAttempted f.fst)) = [] := by
  simp [prBodies, List.filterMap_map]

/-- A job whose discovery finds nothing returns at line 61 with no effects. -/
theorem process_repository_empty (sv : Services) (repo tl : String)
    (hfind : sv.find_convertible_files_call = .ok []) :
    process_repository sv repo tl = (.ok (), []) := by
  simp [process_repository, hfind]

/-- A job where every discovered file fails returns at line 127, after the
branch creation and the per-file attempts but before any commit or PR call. -/
theorem process_repository_none_converted (sv : Services) (repo tl : String)
    (files : List (String × String))
    (hfind : sv.find_convertible_files_call = .ok files)
    (hbr : sv.create_branch_call = .ok ())
    (hall : ∀ f ∈ files, ∃ e, process_one sv tl f = .error e)
    (hne : files ≠ []) :
    process_repository sv repo tl
      = (.ok (), Effect.branchCreated
          :: files.map (fun f => Effect.fileAttempted f.fst)) := by
  have hfst := process_files_fst_all_fail sv tl files hall
  have hsnd := process_files_snd sv tl files
  simp [process_repository, hfind, hbr, List.isEmpty_iff, hne, commit_batch, hfst, hsnd]

/-- C5: any failure inside one iteration of the per-file loop (file read,
conversion, target-path computation or formatting, all inside the `try` of
lines 71-117) is caught by the `except` of lines 118-123: the failing file is
skipped, the loop still attempts every other file in order, and the failure
never escapes the loop, for every position of the failing file. -/
theorem C5_file_failure_isolated (sv : Services) (tl : String)
    (xs ys : List (String × String)) (f : String × String) (e : String)
    (h : process_one sv tl f = .error e) :
    (process_files sv tl (xs ++ f :: ys)).fst = (process_files sv tl (xs ++ ys)).fst ∧
    (process_files sv tl (xs ++ f :: ys)).snd
      = (xs ++ f :: ys).map (fun g => Effect.fileAttempted g.fst) := by
  constructor
  · rw [process_files_fst_append, process_files_fst_append,
        process_files_fst_err sv tl f ys e h]
  · exact process_files_snd sv tl _

/-- C5 witness: in the `svOneBad` scenario, `bad.sh` fails translation between
two positions of `good.sh`; its failure is absorbed and the loop output is
that of the remaining batch. -/
theorem C5_file_failure_isolated_witness :
    (process_files svOneBad "python"
        ([("good.sh", "shell")] ++ ("bad.sh", "shell") :: [("good2.sh", "shell")])).fst
      = (process_files svOneBad "python"
          ([("good.sh", "shell")] ++ [("good2.sh", "shell")])).fst ∧
    (process_files svOneBad "python"
        ([("good.sh", "shell")] ++ ("bad.sh", "shell") :: [("good2.sh", "shell")])).snd
      = ([("good.sh", "shell")] ++ ("bad.sh", "shell") :: [("good2.sh", "shell")]).map
          (fun g => Effect.fileAttempted g.fst) :=
  C5_file_failure_isolated svOneBad "python" [("good.sh", "shell")]
    [("good2.sh", "shell")] ("bad.sh", "shell") "translation failed" (by rfl)

/-- C7: a job in which zero files end up converted — discovery returns the
empty list (lines 59-61), or all discovered files fail conversion (lines
125-127) — returns normally with no commit call and no PR call in its trace,
and the dispatcher marks the job `completed`, not `failed`. -/
theorem C7_zero_converted_completes (sv : Services) (repo tl : String)
    (h : sv.find_convertible_files_call = .ok [] ∨
         ∃ files, sv.find_convertible_files_call = .ok files ∧
           sv.create_branch_call = .ok () ∧
           ∀ f ∈ files, ∃ e, process_one sv tl f = .error e) :
    (process_repository sv repo tl).fst = .ok () ∧
    committedBatches (process_repository sv repo tl).snd = [] ∧
    prBodies (process_repository sv repo tl).snd = [] ∧
    (process_conversion_job sv repo tl initJob).fst.status = "completed" := by
  have hrep : (process_repository sv repo tl).fst = .ok () ∧
      committedBatches (process_repository sv repo tl).snd = [] ∧
      prBodies (process_repository sv repo tl).snd = [] := by
    rcases h with hfind | ⟨files, hfind, hbr, hall⟩
    · rw [process_repository_empty sv repo tl hfind]
      exact ⟨rfl, rfl, rfl⟩
    · rcases eq_or_ne files [] with hnil | hne
      · rw [process_repository_empty sv repo tl (hnil ▸ hfind)]
        exact ⟨rfl, rfl, rfl⟩
      · rw [process_repository_none_converted sv repo tl files hfind hbr hall hne]
        exact ⟨rfl, committedBatches_attempts files, prBodies_attempts files⟩
  refine ⟨hrep.1, hrep.2.1, hrep.2.2, ?_⟩
  rcases hp : process_repository sv repo tl with ⟨r, tr⟩
  rcases r with er | u
  · rw [hp] at hrep
    simp at hrep
  · unfold process_conversion_job
    rw [hp]
    rfl

/-- C7 witness: the empty-discovery scenario completes with no commit and no
PR. -/
theorem C7_zero_converted_completes_witness :
    (process_repository svEmpty "repo" "python").fst = .ok () ∧
    committedBatches (process_repository svEmpty "repo" "python").snd = [] ∧
    prBodies (process_repository svEmpty "repo" "python").snd = [] ∧
    (process_conversion_job svEmpty "repo" "python" initJob).fst.status = "completed" :=
  C7_zero_converted_completes svEmpty "repo" "python" (Or.inl rfl)

/-- C10: the pipeline never reads `max_file_size` or `max_files_per_repo`
(`config.py` lines 41-42): discovery is unchanged under any values of the two
settings, and the per-file loop attempts every discovered file — no file-count
or file-size cap is enforced anywhere. -/
theorem C10_no_size_or_count_cap (s : Settings) (a b : Nat)
    (sl : Option (List String)) (tree : List Entry) (sv : Services) (tl : String) :
    find_convertible_files { s with max_file_size := a, max_files_per_repo := b } sl tree
      = find_convertible_files s sl tree ∧
    (process_files sv tl (find_convertible_files s sl tree)).snd
      = (find_convertible_files s sl tree).map (fun f => Effect.fileAttempted f.fst) :=
  ⟨rfl, process_files_snd sv tl _⟩

/-- C2 counterexample: in the `svColl` scenario the files `a.ts` and `a.js`
are both discovered and both convert successfully; `_get_target_path` maps
both to `a.py`, and the batch passed to `commit_files` contains the path
`a.py` twice — no rejection or deduplication happens anywhere before the
commit call. -/
theorem C2_counterexample :
    (committedBatches (process_repository svColl "repo" "python").snd).map
        (fun b => b.map Prod.fst) = [["a.py", "a.py"]] ∧
    ¬ (["a.py", "a.py"] : List String).Nodup :=
  ⟨by rfl, by decide⟩

/-- C2 amended: converted paths are not deduplicated and collisions are not
rejected: whenever two distinct discovered files both convert successfully
and map to the same converted path, the batch built for `commit_files`
(line 110) contains that path at least twice. -/
theorem C2_no_dedup (sv : Services) (tl : String)
    (xs ys zs : List (String × String)) (f g : String × String)
    (cf cg : FileConversion)
    (hf : process_one sv tl f = .ok cf) (hg : process_one sv tl g = .ok cg)
    (hp : cf.converted_path = cg.converted_path) :
    ¬ ((commit_batch (process_files sv tl (xs ++ f :: ys ++ g :: zs)).fst).map
        Prod.fst).Nodup := by
  intro hn
  have h1 : (process_files sv tl (xs ++ f :: ys ++ g :: zs)).fst
      = (process_files sv tl xs).fst
        ++ cf :: ((process_files sv tl ys).fst
          ++ cg :: (process_files sv tl zs).fst) := by
    simp only [process_files_fst_append,
      process_files_fst_ok sv tl f (ys ++ g :: zs) cf hf,
      process_files_fst_ok sv tl g zs cg hg, process_files_fst_append,
      List.cons_append, List.append_assoc]
  rw [h1] at hn
  simp only [commit_batch, List.map_map, List.map_append, List.map_cons,
    Function.comp] at hn
  have hn2 := List.Nodup.of_append_right hn
  rw [List.nodup_cons] at hn2
  exact hn2.1 (by rw [hp]; exact List.mem_append_right _ (List.mem_cons_self _ _))

/-- C2 amended witness: the `svColl` collision scenario instantiates the
no-deduplication theorem. -/
theorem C2_no_dedup_witness :
    ¬ ((commit_batch (process_files svColl "python"
        ([] ++ ("a.ts", "typescript") :: [] ++ ("a.js", "javascript") :: [])).fst).map
        Prod.fst).Nodup :=
  C2_no_dedup svColl "python" [] [] [] ("a.ts", "typescript") ("a.js", "javascript")
    (convOf svColl "python" ("a.ts", "typescript"))
    (convOf svColl "python" ("a.js", "javascript"))
    (by rfl) (by rfl) (by rfl)

/-- C3 counterexample: in the `svSummaryFail` scenario the PR-summary LLM call
fails; the claim says the caller then falls back to a deterministic templated
PR description, but the body actually handed to `create_pull_request` is the
`None` that falls out of `generate_pr_description` (lines 272-274 log and
return nothing) — no templated description exists anywhere on this path. -/
theorem C3_counterexample :
    prBodies (process_repository svSummaryFail "repo" "python").snd = [none] ∧
    (process_repository svSummaryFail "repo" "python").fst = .ok () :=
  ⟨by rfl, by rfl⟩

/-- C3 amended: for every job in which at least one discovered file converts
successfully, a PR-summary generation failure is swallowed, not raised: the
job does not fail, the pull request is still created and the run completes —
but the PR body passed on is `None` (no deterministic templated fallback
description is substituted). -/
theorem C3_summary_failure_nonfatal (sv : Services) (repo tl : String)
    (files : List (String × String)) (url e : String)
    (hfind : sv.find_convertible_files_call = .ok files)
    (hbr : sv.create_branch_call = .ok ())
    (hsome : (process_files sv tl files).fst ≠ [])
    (hcommit : ∀ b m, sv.commit_files_call b m = .ok ())
    (hllm : ∀ l r, sv.llm_pr_description_call l r = .error e)
    (hpr : ∀ t b, sv.create_pull_request_call t b = .ok url) :
    (process_repository sv repo tl).fst = .ok () ∧
    prBodies (process_repository sv repo tl).snd = [none] ∧
    prUrls (process_repository sv repo tl).snd = [url] := by
  have hne : files ≠ [] := by
    intro h0
    rw [h0] at hsome
    exact hsome rfl
  have hie : files.isEmpty = false := by
    cases files with
    | nil => exact absurd rfl hne
    | cons a l => rfl
  have hsnd := process_files_snd sv tl files
  have hbe : (commit_batch (process_files sv tl files).fst).isEmpty = false := by
    rcases hc : (process_files sv tl files).fst with _ | ⟨c, rest⟩
    · exact absurd hc hsome
    · simp [commit_batch]
  simp [process_repository, hfind, hbr, hie, hbe, hsnd, hcommit, hllm, hpr,
    generate_pr_description_result, prBodies, prUrls, List.filterMap_append,
    List.filterMap_map]

/-- C3 amended witness: the `svSummaryFail` scenario instantiates the theorem:
the job completes, the PR body is `None`, the PR is opened. -/
theorem C3_summary_failure_nonfatal_witness :
    (process_repository svSummaryFail "repo" "python").fst = .ok () ∧
    prBodies (process_repository svSummaryFail "repo" "python").snd = [none] ∧
    prUrls (process_repository svSummaryFail "repo" "python").snd
      = ["https://github.com/o/r/pull/3"] :=
  C3_summary_failure_nonfatal svSummaryFail "repo" "python" [("deploy.sh", "shell")]
    "https://github.com/o/r/pull/3" "llm quota exceeded"
    rfl rfl (by decide) (fun _ _ => rfl) (fun _ _ => rfl) (fun _ _ => rfl)

/-- C4 (documents the divergence): `process_repository` is annotated
`-> None` and returns nothing on success (modelled result `Except String
Unit`), and `process_conversion_job` (main.py lines 458-463) persists only
`status` and `completed_at` after it returns; so even for a fully successful
job that opened a pull request, the ledger record keeps `pr_url = None` and
both counters at 0, and a status query for the job surfaces no PR URL and
zero counts. -/
theorem C4_results_not_persisted :
    prUrls (process_conversion_job svSuccess "repo" "python" initJob).snd
      = ["https://github.com/o/r/pull/1"] ∧
    (process_conversion_job svSuccess "repo" "python" initJob).fst
      = { status := "completed", error_message := none, pr_url := none,
          files_processed := 0, files_converted := 0 } :=
  ⟨by rfl, by rfl⟩

/-- C6 (documents the divergence): no code path increments `files_processed`
or `files_converted` — the `database.py` column defaults of 0 are never
updated by the loop (conversion_service.py lines 118-123 only log) nor by the
dispatcher. In the `svOneBad` scenario two files are attempted, one fails and
one converts, yet the completed job record still carries both counters at 0
instead of the claimed `files_processed = 2`, `files_converted = 1`. -/
theorem C6_counters_never_incremented :
    attemptedPaths (process_conversion_job svOneBad "repo" "python" initJob).snd
      = ["bad.sh", "good.sh"] ∧
    (process_conversion_job svOneBad "repo" "python" initJob).fst.files_processed = 0 ∧
    (process_conversion_job svOneBad "repo" "python" initJob).fst.files_converted = 0 ∧
    (process_conversion_job svOneBad "repo" "python" initJob).fst.status = "completed" :=
  ⟨by rfl, by rfl, by rfl, by rfl⟩

/-- C8: `create_branch` treats an existing target ref as a logged no-op — the
"Reference already exists" `GithubException` is caught (lines 112-114) and the
state is returned unchanged, with no error; any other branch-creation failure
(such as a missing source branch) re-raises (lines 115-117); and a job whose
branch-creation call returns normally proceeds to attempt every discovered
file (the trace continues with the full per-file loop). -/
theorem C8_branch_exists_noop :
    (∀ (s : GitState) (src tgt : String) (sha : Nat),
        alookupN s.refs src = some sha → (alookupN s.refs tgt).isSome = true →
        create_branch s src tgt = .ok s) ∧
    (∀ (s : GitState) (src tgt : String),
        alookupN s.refs src = none → create_branch s src tgt = .error notFoundError) ∧
    (∀ (sv : Services) (repo tl : String) (files : List (String × String)),
        sv.find_convertible_files_call = .ok files → files ≠ [] →
        sv.create_branch_call = .ok () →
        ∃ rest, (process_repository sv repo tl).snd
          = Effect.branchCreated
            :: files.map (fun f => Effect.fileAttempted f.fst) ++ rest) := by
  refine ⟨?_, ?_, ?_⟩
  · intro s src tgt sha h1 h2
    have hx : strHas refExistsError "Reference already exists" = true := by decide
    simp [create_branch, h1, h2, hx]
  · intro s src tgt h1
    have hx : strHas notFoundError "Reference already exists" = false := by decide
    simp [create_branch, h1, hx]
  · intro sv repo tl files hfind hne hbr
    have hsnd := process_files_snd sv tl files
    have hie : files.isEmpty = false := by
      cases files with
      | nil => exact absurd rfl hne
      | cons a l => rfl
    simp only [process_repository, hfind, hbr, hie, Bool.false_eq_true, if_false]
    by_cases hb : (commit_batch (process_files sv tl files).fst).isEmpty
    · exact ⟨[], by simp [hb, hsnd]⟩
    · rcases hc : sv.commit_files_call
          (commit_batch (process_files sv tl files).fst)
          (build_commit_message tl (process_files sv tl files).fst) with e | u
      · exact ⟨[Effect.commitCalled
            (commit_batch (process_files sv tl files).fst)
            (build_commit_message tl (process_files sv tl files).fst)],
          by simp [hb, hc, hsnd]⟩
      · rcases hpr : sv.create_pull_request_call
            (build_pr_title tl (process_files sv tl files).fst)
            (generate_pr_description_result
              (sv.llm_pr_description_call (process_files sv tl files).fst repo))
            with e2 | url
        · exact ⟨[Effect.commitCalled
              (commit_batch (process_files sv tl files).fst)
              (build_commit_message tl (process_files sv tl files).fst),
            Effect.prCalled
              (build_pr_title tl (process_files sv tl files).fst)
              (generate_pr_description_result
                (sv.llm_pr_description_call (process_files sv tl files).fst repo))],
            by simp [hb, hc, hpr, hsnd]⟩
        · exact ⟨[Effect.commitCalled
              (commit_batch (process_files sv tl files).fst)
              (build_commit_message tl (process_files sv tl files).fst),
            Effect.prCalled
              (build_pr_title tl (process_files sv tl files).fst)
              (generate_pr_description_result
                (sv.llm_pr_description_call (process_files sv tl files).fst repo)),
            Effect.prOpened url],
            by simp [hb, hc, hpr, hsnd]⟩

/-- C8 witness: on `gsBoth` the conversion branch already exists and
`create_branch` is a no-op; a missing source branch propagates; and the
`svSuccess` job proceeds through the whole loop after branch creation. -/
theorem C8_branch_exists_noop_witness :
    create_branch gsBoth "main" "convert-to-python" = .ok gsBoth ∧
    create_branch gsBoth "missing" "x" = .error notFoundError ∧
    ∃ rest, (process_repository svSuccess "repo" "python").snd
      = Effect.branchCreated
        :: [("deploy.sh", "shell")].map (fun f => Effect.fileAttempted f.fst) ++ rest :=
  ⟨C8_branch_exists_noop.1 gsBoth "main" "convert-to-python" 5 rfl rfl,
   C8_branch_exists_noop.2.1 gsBoth "missing" "x" rfl,
   C8_branch_exists_noop.2.2 svSuccess "repo" "python" [("deploy.sh", "shell")]
     rfl (List.cons_ne_nil _ _) rfl⟩

/-! ## Lemmas about the git-store model. -/

/-- A key outside the table looks up to nothing. -/
theorem alookupN_eq_none_of_not_mem {α : Type} (t : List (String × α)) (p : String)
    (h : p ∉ t.map Prod.fst) : alookupN t p = none := by
  induction t with
  | nil => rfl
  | cons e rest ih =>
    have hne : e.fst ≠ p := by
      intro hx
      exact h (by simp [hx])
    simp [alookupN, hne]
    exact ih (fun hx => h (by simp [hx]))

/-- A looked-up value is among the table's values. -/
theorem alookupN_mem_snd {α : Type} (t : List (String × α)) (p : String) (v : α)
    (h : alookupN t p = some v) : v ∈ t.map Prod.snd := by
  induction t with
  | nil => simp [alookupN] at h
  | cons e rest ih =>
    by_cases he : e.fst = p
    · have h2 : e.snd = v := by simpa [alookupN, he] using h
      simp [h2]
    · have h2 : alookupN rest p = some v := by simpa [alookupN, he] using h
      simp [ih h2]

/-- Replacing the entry at `p` makes `p` look up to the new value. -/
theorem alookupN_map_update_self (t : List (String × String)) (p c : String)
    (hm : p ∈ t.map Prod.fst) :
    alookupN (t.map fun e => if e.fst = p then (p, c) else e) p = some c := by
  induction t with
  | nil => simp at hm
  | cons e rest ih =>
    rw [List.map_cons]
    by_cases he : e.fst = p
    · rw [if_pos he]
      simp [alookupN]
    · rw [if_neg he]
      rw [List.map_cons] at hm
      have hm2 : p ∈ rest.map Prod.fst := by
        rcases List.mem_cons.mp hm with h1 | h1
        · exact absurd h1.symm he
        · exact h1
      simp only [alookupN]
      rw [if_neg he]
      exact ih hm2

/-- Replacing the entry at `q` leaves other keys unchanged. -/
theorem alookupN_map_update_ne (t : List (String × String)) (q d p : String)
    (hne : q ≠ p) :
    alookupN (t.map fun e => if e.fst = q then (q, d) else e) p = alookupN t p := by
  induction t with
  | nil => rfl
  | cons e rest ih =>
    rw [List.map_cons]
    by_cases he : e.fst = q
    · rw [if_pos he]
      have hep : e.fst ≠ p := by rw [he]; exact hne
      simp only [alookupN]
      rw [if_neg hne, if_neg hep]
      exact ih
    · rw [if_neg he]
      simp only [alookupN]
      by_cases hep : e.fst = p
      · rw [if_pos hep, if_pos hep]
      · rw [if_neg hep, if_neg hep]
        exact ih

/-- Appending a fresh entry for `p` makes `p` look up to it. -/
theorem alookupN_append_single_self {α : Type} (t : List (String × α)) (p : String)
    (c : α) (hm : p ∉ t.map Prod.fst) : alookupN (t ++ [(p, c)]) p = some c := by
  induction t with
  | nil => simp [alookupN]
  | cons e rest ih =>
    have hne : e.fst ≠ p := fun hx => hm (by simp [hx])
    simp [alookupN, hne]
    exact ih (fun hx => hm (by simp [hx]))

/-- Appending an entry for `q` leaves other keys unchanged. -/
theorem alookupN_append_single_ne {α : Type} (t : List (String × α)) (q : String)
    (d : α) (p : String) (hne : q ≠ p) : alookupN (t ++ [(q, d)]) p = alookupN t p := by
  induction t with
  | nil => simp [alookupN, hne]
  | cons e rest ih =>
    by_cases hep : e.fst = p
    · simp [alookupN, hep]
    · simp [alookupN, hep, ih]

/-- Updating a tree entry makes it the value found at its path. -/
theorem alookupN_upsert_self (t : List (String × String)) (p c : String) :
    alookupN (upsertTree t p c) p = some c := by
  by_cases hm : p ∈ t.map Prod.fst
  · simp only [upsertTree, if_pos hm]
    exact alookupN_map_update_self t p c hm
  · simp only [upsertTree, if_neg hm]
    exact alookupN_append_single_self t p c hm

/-- Updating one path leaves every other path's lookup unchanged. -/
theorem alookupN_upsert_ne (t : List (String × String)) (q d p : String)
    (hne : q ≠ p) : alookupN (upsertTree t q d) p = alookupN t p := by
  by_cases hm : q ∈ t.map Prod.fst
  · simp only [upsertTree, if_pos hm]
    exact alookupN_map_update_ne t q d p hne
  · simp only [upsertTree, if_neg hm]
    exact alookupN_append_single_ne t q d p hne

/-- Folding updates whose paths avoid `p` leaves `p`'s lookup unchanged. -/
theorem foldl_upsert_preserve (rest : List (String × String)) (p : String)
    (hni : p ∉ rest.map Prod.fst) :
    ∀ t0, alookupN (rest.foldl (fun t e => upsertTree t e.fst e.snd) t0) p
      = alookupN t0 p := by
  induction rest with
  | nil => intro t0; rfl
  | cons e r ih =>
    intro t0
    have hne : e.fst ≠ p := by
      intro hx
      exact hni (by simp [hx])
    simp only [List.foldl_cons]
    rw [ih (fun hx => hni (by simp [hx])), alookupN_upsert_ne _ _ _ _ hne]

/-- With duplicate-free paths, the layered tree holds every file's content at
its path. -/
theorem foldl_upsert_lookup (files : List (String × String)) (p cont : String)
    (hnd : (files.map Prod.fst).Nodup) (hmem : (p, cont) ∈ files) :
    ∀ t0, alookupN (files.foldl (fun t e => upsertTree t e.fst e.snd) t0) p
      = some cont := by
  induction files with
  | nil => simp at hmem
  | cons e rest ih =>
    intro t0
    rw [List.map_cons] at hnd
    have hnd2 := List.nodup_cons.mp hnd
    simp only [List.foldl_cons]
    rcases List.mem_cons.mp hmem with heq | hmem2
    · have hfst : e.fst = p := by rw [← heq]
      have hsnd : e.snd = cont := by rw [← heq]
      have hnotin : p ∉ rest.map Prod.fst := hfst ▸ hnd2.1
      rw [foldl_upsert_preserve rest p hnotin, hfst, hsnd, alookupN_upsert_self]
    · exact ih hnd2.2 hmem2 _

/-- A compare-and-swap ref update moves exactly the updated branch. -/
theorem alookupN_setRef_self (refs : List (String × Nat)) (b : String) (sha t : Nat)
    (h : alookupN refs b = some t) : alookupN (setRef refs b sha) b = some sha := by
  induction refs with
  | nil => simp [alookupN] at h
  | cons e rest ih =>
    simp only [setRef, List.map_cons]
    by_cases he : e.fst = b
    · rw [if_pos he]
      simp [alookupN]
    · rw [if_neg he]
      have h2 : alookupN rest b = some t := by simpa [alookupN, he] using h
      simp only [alookupN]
      rw [if_neg he]
      exact ih h2

/-- C1: `commit_files` is atomic from the caller's perspective. Its API trace
is exactly one branch-tip read, one blob per file, one tree read, one layered
tree creation, one parent read, one commit creation and one ref update; when
the ref has not moved, all files appear in exactly one new commit that becomes
the branch tip; and when a concurrent writer moved the ref between the tip
read and the ref update, the non-forced update is rejected
(`concurrentUpdateError`, the spec's `ConcurrentUpdateError`), the error
re-raises, and the branch ref is left exactly as the concurrent writer set
it — never silently overwritten. -/
theorem C1_commit_files_atomic (s : GitState) (branch : String)
    (files : List (String × String)) (msg : String)
    (refsAtEdit : List (String × Nat)) (sha0 : Nat)
    (href : alookupN s.refs branch = some sha0)
    (hnodup : (files.map Prod.fst).Nodup)
    (hfresh : s.fresh ∉ refsAtEdit.map Prod.snd) :
    (commit_files s branch files msg refsAtEdit).trace
      = ApiCall.getRefCall :: (files.map fun _ => ApiCall.createBlobCall)
        ++ [ApiCall.getTreeCall, ApiCall.createTreeCall, ApiCall.getCommitCall,
            ApiCall.createCommitCall, ApiCall.editRefCall] ∧
    (alookupN refsAtEdit branch = some sha0 →
      (commit_files s branch files msg refsAtEdit).result = .ok () ∧
      alookupN (commit_files s branch files msg refsAtEdit).finalRefs branch
        = some s.fresh ∧
      ∃ c, (commit_files s branch files msg refsAtEdit).commits
          = (s.fresh, c) :: s.commits ∧
        c.parent = some sha0 ∧ c.message = msg ∧
        ∀ pc ∈ files, alookupN c.tree pc.fst = some pc.snd) ∧
    (∀ t, alookupN refsAtEdit branch = some t → t ≠ sha0 →
      (commit_files s branch files msg refsAtEdit).result = .error concurrentUpdateError ∧
      (commit_files s branch files msg refsAtEdit).finalRefs = refsAtEdit ∧
      alookupN (commit_files s branch files msg refsAtEdit).finalRefs branch
        ≠ some s.fresh) := by
  refine ⟨?_, ?_, ?_⟩
  · rcases happly : apiEditRef refsAtEdit branch sha0 s.fresh with e | r
    · simp [commit_files, href, happly]
    · simp [commit_files, href, happly]
  · intro hEq
    have hedit : apiEditRef refsAtEdit branch sha0 s.fresh
        = .ok (setRef refsAtEdit branch s.fresh) := by
      simp [apiEditRef, hEq]
    simp only [commit_files, href, hedit]
    refine ⟨trivial, ?_, ?_⟩
    · exact alookupN_setRef_self refsAtEdit branch s.fresh sha0 hEq
    · refine ⟨_, rfl, rfl, rfl, ?_⟩
      intro pc hpc
      exact foldl_upsert_lookup files pc.fst pc.snd hnodup
        (by rw [Prod.mk.eta]; exact hpc) _
  · intro t hEq hne
    have hedit : apiEditRef refsAtEdit branch sha0 s.fresh
        = .error concurrentUpdateError := by
      simp [apiEditRef, hEq, hne]
    simp only [commit_files, href, hedit]
    refine ⟨trivial, trivial, ?_⟩
    rw [hEq]
    intro hcontra
    exact hfresh ((Option.some_inj.mp hcontra)
      ▸ alookupN_mem_snd refsAtEdit branch t hEq)

/-- C1 witness: committing `a.py` and `b.py` on `gsMain`: the trace has the
required shape; with the ref unmoved the commit applies with both files; a
moved ref would be rejected. -/
theorem C1_commit_files_atomic_witness :
    (commit_files gsMain "main" [("a.py", "A"), ("b.py", "B")] "Convert"
        gsMain.refs).trace
      = ApiCall.getRefCall
        :: ([("a.py", "A"), ("b.py", "B")].map fun _ => ApiCall.createBlobCall)
        ++ [ApiCall.getTreeCall, ApiCall.createTreeCall, ApiCall.getCommitCall,
            ApiCall.createCommitCall, ApiCall.editRefCall] ∧
    (alookupN gsMain.refs "main" = some 10 →
      (commit_files gsMain "main" [("a.py", "A"), ("b.py", "B")] "Convert"
          gsMain.refs).result = .ok () ∧
      alookupN (commit_files gsMain "main" [("a.py", "A"), ("b.py", "B")] "Convert"
          gsMain.refs).finalRefs "main" = some gsMain.fresh ∧
      ∃ c, (commit_files gsMain "main" [("a.py", "A"), ("b.py", "B")] "Convert"
            gsMain.refs).commits = (gsMain.fresh, c) :: gsMain.commits ∧
        c.parent = some 10 ∧ c.message = "Convert" ∧
        ∀ pc ∈ [("a.py", "A"), ("b.py", "B")], alookupN c.tree pc.fst = some pc.snd) ∧
    (∀ t, alookupN gsMain.refs "main" = some t → t ≠ 10 →
      (commit_files gsMain "main" [("a.py", "A"), ("b.py", "B")] "Convert"
          gsMain.refs).result = .error concurrentUpdateError ∧
      (commit_files gsMain "main" [("a.py", "A"), ("b.py", "B")] "Convert"
          gsMain.refs).finalRefs = gsMain.refs ∧
      alookupN (commit_files gsMain "main" [("a.py", "A"), ("b.py", "B")] "Convert"
          gsMain.refs).finalRefs "main" ≠ some gsMain.fresh) :=
  C1_commit_files_atomic gsMain "main" [("a.py", "A"), ("b.py", "B")] "Convert"
    gsMain.refs 10 (by rfl) (by decide) (by decide)

/-! ## Lemmas about substring search. -/

/-- Unfolding of the leftmost split on a cons cell. -/
theorem splitAtFirst_cons (c : Char) (t pat : List Char) :
    splitAtFirst (c :: t) pat
      = if listStarts (c :: t) pat then some ([], (c :: t).drop pat.length)
        else match splitAtFirst t pat with
          | some (b, a) => some (c :: b, a)
          | none => none := rfl

/-- A successful prefix test exhibits the suffix decomposition. -/
theorem listStarts_drop (pat : List Char) :
    ∀ l, listStarts l pat = true → l = pat ++ l.drop pat.length := by
  induction pat with
  | nil => intro l _; simp
  | cons p ps ih =>
    intro l h
    cases l with
    | nil => simp [listStarts] at h
    | cons c t =>
      simp only [listStarts, Bool.and_eq_true, beq_iff_eq] at h
      obtain ⟨hc, ht⟩ := h
      simp only [List.length_cons, List.drop_succ_cons, List.cons_append]
      rw [hc, ← ih t ht]

/-- A list starts with its own prefix. -/
theorem listStarts_append_self (pat rest : List Char) :
    listStarts (pat ++ rest) pat = true := by
  induction pat with
  | nil => simp [listStarts]
  | cons p ps ih => simp [listStarts, ih]

/-- A successful leftmost split is a decomposition of the list. -/
theorem splitAtFirst_decomp (pat : List Char) :
    ∀ l b a, splitAtFirst l pat = some (b, a) → l = b ++ pat ++ a := by
  intro l
  induction l with
  | nil =>
    intro b a h
    by_cases hp : pat.isEmpty
    · have hp2 : pat = [] := List.isEmpty_iff.mp hp
      have h2 : b = [] ∧ a = [] := by simpa [splitAtFirst, hp2] using h
      rw [hp2, h2.1, h2.2]
      rfl
    · simp [splitAtFirst, hp] at h
  | cons c t ih =>
    intro b a h
    rw [splitAtFirst_cons] at h
    by_cases hs : listStarts (c :: t) pat = true
    · rw [if_pos hs] at h
      have h2 := Option.some_inj.mp h
      have hb : b = [] := ((Prod.mk.injEq _ _ _ _).mp h2).1.symm
      have ha : a = (c :: t).drop pat.length := ((Prod.mk.injEq _ _ _ _).mp h2).2.symm
      rw [hb, ha]
      simpa using listStarts_drop pat (c :: t) hs
    · rw [if_neg hs] at h
      rcases hm : splitAtFirst t pat with _ | ⟨b', a'⟩
      · rw [hm] at h
        simp at h
      · rw [hm] at h
        have h2 := Option.some_inj.mp h
        have hb : b = c :: b' := ((Prod.mk.injEq _ _ _ _).mp h2).1.symm
        have ha : a = a' := ((Prod.mk.injEq _ _ _ _).mp h2).2.symm
        rw [hb, ha]
        simpa using ih b' a' hm

/-- The split succeeds on any list that begins with the pattern. -/
theorem splitAtFirst_isSome_self (pat a : List Char) :
    (splitAtFirst (pat ++ a) pat).isSome = true := by
  rcases hpa : pat ++ a with _ | ⟨c, t⟩
  · have h0 : pat = [] := (List.append_eq_nil.mp hpa).1
    simp [splitAtFirst, h0]
  · have hs : listStarts (c :: t) pat = true := by
      rw [← hpa]
      exact listStarts_append_self pat a
    simp [splitAtFirst_cons, hs]

/-- Any explicit occurrence makes the substring test succeed. -/
theorem hasSub_of_decomp (pat : List Char) :
    ∀ b a, hasSub (b ++ pat ++ a) pat = true := by
  intro b
  induction b with
  | nil =>
    intro a
    simp only [List.nil_append]
    simpa [hasSub] using splitAtFirst_isSome_self pat a
  | cons c t ih =>
    intro a
    have hstep : (c :: t) ++ pat ++ a = c :: (t ++ pat ++ a) := by simp
    rw [show hasSub ((c :: t) ++ pat ++ a) pat
        = (splitAtFirst (c :: (t ++ pat ++ a)) pat).isSome from by rw [← hstep]; rfl]
    rw [splitAtFirst_cons]
    by_cases hs : listStarts (c :: (t ++ pat ++ a)) pat = true
    · rw [if_pos hs]
      rfl
    · rw [if_neg hs]
      rcases hm : splitAtFirst (t ++ pat ++ a) pat with _ | ⟨b', a'⟩
      · exfalso
        have hx := ih a
        simp only [hasSub] at hx
        rw [hm] at hx
        simp at hx
      · rfl

/-- A response containing a tagged fence contains a bare fence. -/
theorem strHas_fence_of_tagged (content : String)
    (h : strHas content "```python" = true) : strHas content "```" = true := by
  obtain ⟨⟨b, a⟩, hsome⟩ := Option.isSome_iff_exists.mp h
  have hd := splitAtFirst_decomp _ _ _ _ hsome
  have hsplit : "```python".toList = "```".toList ++ "python".toList := by decide
  have hd2 : content.toList = b ++ "```".toList ++ ("python".toList ++ a) := by
    rw [hd, hsplit, ← List.append_assoc b, List.append_assoc]
  show hasSub content.toList ("```".toList) = true
  rw [hd2]
  exact hasSub_of_decomp _ _ _

/-- A response containing a tagged fence contains `python` once lowercased. -/
theorem strHas_python_of_tagged (content : String)
    (h : strHas content "```python" = true) :
    strHas (lowerStr content) "python" = true := by
  obtain ⟨⟨b, a⟩, hsome⟩ := Option.isSome_iff_exists.mp h
  have hd := splitAtFirst_decomp _ _ _ _ hsome
  show hasSub (content.toList.map Char.toLower) ("python".toList) = true
  rw [hd]
  simp only [List.map_append]
  rw [show "```python".toList.map Char.toLower
      = "```".toList ++ "python".toList from by decide]
  rw [← List.append_assoc (b.map Char.toLower) ("```".toList) ("python".toList)]
  exact hasSub_of_decomp _ _ _

/-- C9 counterexample: for the response `"```\nfoo\n```"` — a fenced block
whose fence omits the language tag, in a response that nowhere contains the
word `python` — the parser does not extract the block: branch 2's guard
(line 198) requires `python` to occur in the lowercased response, so the whole
response, fence markers included, is returned as the code, leaving stray
backticks in the extracted code. -/
theorem C9_counterexample :
    (convert_code_to_python bareFenceResponse).fst = bareFenceResponse ∧
    (convert_code_to_python bareFenceResponse).fst ≠ "foo" ∧
    strHas (convert_code_to_python bareFenceResponse).fst "```" = true :=
  ⟨by decide, by decide, by decide⟩

/-- C9 amended: a response with no fenced block at all — and likewise any
response in which `python` does not occur case-insensitively, even one with a
bare fenced block — is returned whole as the code with the fixed placeholder
notes; the first fenced block is extracted with the fence markers stripped
exactly once when the fence is `python`-tagged, and with an untagged fence
only when the word `python` occurs elsewhere in the response. -/
theorem C9_fence_extraction :
    (∀ content : String, strHas content "```" = false →
      convert_code_to_python content = (content, placeholderNotes)) ∧
    (∀ content : String, strHas (lowerStr content) "python" = false →
      convert_code_to_python content = (content, placeholderNotes)) ∧
    convert_code_to_python "```python\nx = 1\n```" = ("x = 1", emptyNotesPlaceholder) ∧
    convert_code_to_python "Python:\n```\ny = 2\n```" = ("y = 2", "Python:") := by
  refine ⟨?_, ?_, by decide, by decide⟩
  · intro content h3
    have h1 : strHas content "```python" = false := by
      cases hx : strHas content "```python"
      · rfl
      · rw [strHas_fence_of_tagged content hx] at h3
        cases h3
    have h2 : (strHas content "```" && strHas (lowerStr content) "python") = false := by
      rw [h3, Bool.false_and]
    simp only [convert_code_to_python, h1, h2, Bool.false_eq_true, if_false]
    have hc : pyStrip (replaceStr placeholderNotes "```" "") = placeholderNotes := by
      decide
    rw [hc, if_neg (by decide : ¬ (placeholderNotes = ""))]
  · intro content hB
    have h1 : strHas content "```python" = false := by
      cases hx : strHas content "```python"
      · rfl
      · rw [strHas_python_of_tagged content hx] at hB
        cases hB
    have h2 : (strHas content "```" && strHas (lowerStr content) "python") = false := by
      rw [hB, Bool.and_false]
    simp only [convert_code_to_python, h1, h2, Bool.false_eq_true, if_false]
    have hc : pyStrip (replaceStr placeholderNotes "```" "") = placeholderNotes := by
      decide
    rw [hc, if_neg (by decide : ¬ (placeholderNotes = ""))]

/-- C9 amended witness: a response with no fence at all comes back whole with
the placeholder notes. -/
theorem C9_fence_extraction_witness :
    convert_code_to_python "no fences in this response"
      = ("no fences in this response", placeholderNotes) :=
  C9_fence_extraction.1 "no fences in this response" (by decide)
